import Mathlib

/-!
Verification of the PercentileChart visual (PowerBI-visuals repository).

The development shallowly embeds the data-to-model transformation of the
two revisions of the percentile chart:

* `src/src/Clients/Visuals/visuals/percentileChart.ts` (namespace `Main`)
* `src/unnamed/part_000` (namespace `Part000`)

JavaScript numbers are modelled as rationals (`ℚ`).  Raw dataset entries,
which may be non-numeric, are modelled by `JSValue`.  Calls into the d3
library (`d3.min`, `d3.max`, `d3.scale.quantile().quantiles()`,
`d3.quantile`, `Math.round`) are embedded following the d3 v3
implementation that the source relies on (the source comments document the
expected behaviour: quantiles 1 to 99 by linear interpolation over the
sorted dataset).  Host-framework helpers that are not part of the
repository sources (`DataViewObjects.getValue`, `ColorHelper`, `SVGUtil`)
are modelled from the specification and marked as such.
-/

set_option maxHeartbeats 1000000

namespace PowerBIPercentile

/-- A raw value of a data column, as seen by JavaScript.  `num` is a finite
number; `nan`, `inf` and `negInf` have JavaScript type "number" but are not
finite; `str` is a string; `nullish` stands for null or undefined. -/
inductive JSValue where
  | num (q : ℚ)
  | nan
  | inf
  | negInf
  | str (s : String)
  | nullish
deriving DecidableEq

/-- The viewport passed by the host on every update: width and height. -/
structure Viewport where
  width : ℚ
  height : ℚ
deriving DecidableEq

/-- Column metadata: only the display name is consumed by the chart. -/
structure DataViewMetadataColumn where
  displayName : Option String
deriving DecidableEq

/-- Modelled from the spec: the user-configuration accessor is a fixed
two-object schema (dataPoint.fill, labels.labelPrecision), each
independently optional.  The host type DataViewObjects is a dynamic
property bag; only the two properties read by this visual are modelled. -/
structure DataViewObjects where
  labelPrecision : Option ℚ
  fill : Option String
deriving DecidableEq

/-- A category column of the categorical data view. -/
structure DataViewCategoryColumn where
  source : Option DataViewMetadataColumn
  values : Option (List JSValue)
deriving DecidableEq

/-- A value (measure) column of the categorical data view. -/
structure DataViewValueColumn where
  source : Option DataViewMetadataColumn
  values : Option (List JSValue)
deriving DecidableEq

/-- The categorical part of a data view. -/
structure DataViewCategorical where
  categories : Option (List DataViewCategoryColumn)
  values : Option (List DataViewValueColumn)
deriving DecidableEq

/-- Data view metadata: column metadata and the optional user objects. -/
structure DataViewMetadata where
  columns : Option (List DataViewMetadataColumn)
  objects : Option DataViewObjects
deriving DecidableEq

/-- The data view handed to the converter on every update. -/
structure DataView where
  categorical : Option DataViewCategorical
  metadata : Option DataViewMetadata
deriving DecidableEq

/-- interface Percentile: one point of the computed curve. -/
structure Percentile where
  percentile : ℕ
  value : ℚ
deriving DecidableEq

instance : Inhabited Percentile := ⟨⟨0, 0⟩⟩

/-- Modelled from the spec: SVGUtil.translate and
SVGUtil.translateAndRotate (host helpers not in the sources) produce SVG
transform strings; they are modelled as constructors carrying their
arguments, since only the legend text content is part of the core
contract. -/
inductive Transform where
  | translate (x y : ℚ)
  | translateAndRotate (x y cx cy angle : ℚ)
deriving DecidableEq

/-- interface Legend: a legend entry of the view model. -/
structure Legend where
  text : String
  transform : Option Transform := none
  dx : Option String := none
  dy : Option String := none
deriving DecidableEq

/-- interface PercentileChartSettings. -/
structure PercentileChartSettings where
  fillColor : String
  precision : ℚ
  xAxisTitle : String
deriving DecidableEq

/-- JavaScript truthiness of an optional string: undefined and the empty
string are falsy. -/
def jsTruthyString : Option String → Bool
  | some s => !(s == "")
  | none => false

/-- Modelled from the spec: DataViewObjects.getValue (host helper, not in
the sources) reads the configured labels.labelPrecision value, falling
back to the given default when the property is absent. -/
def getLabelPrecisionValue (objects : DataViewObjects) (defaultValue : ℚ) : ℚ :=
  objects.labelPrecision.getD defaultValue

/-- Modelled from the spec: ColorHelper.getColorForMeasure (host helper,
not in the sources) returns the configured dataPoint.fill color when
present and otherwise the default color the helper was constructed with. -/
def getColorForMeasure (objects : Option DataViewObjects) (defaultColor : String) : String :=
  match objects with
  | some objs => objs.fill.getD defaultColor
  | none => defaultColor

/-- d3.min over a list of numbers (d3 v3): the smallest element; undefined
on an empty array, totalised here with 0. -/
def d3min : List ℚ → ℚ
  | [] => 0
  | x :: xs => xs.foldl min x

/-- d3.max over a list of numbers (d3 v3): the largest element; undefined
on an empty array, totalised here with 0. -/
def d3max : List ℚ → ℚ
  | [] => 0
  | x :: xs => xs.foldl max x

/-- d3.quantile(values, p) of d3 v3, for values already sorted ascending:
H = (n - 1) * p + 1, h = floor(H), v = values[h - 1], e = H - h; the
result is v when e = 0 and v + e * (values[h] - v) otherwise (type-7
linear interpolation).  Out-of-range accesses are totalised with 0; they
do not occur for 0 <= p <= 1 on non-empty input. -/
def d3quantile (values : List ℚ) (p : ℚ) : ℚ :=
  let H : ℚ := ((values.length : ℚ) - 1) * p + 1
  let h : ℤ := ⌊H⌋
  let v : ℚ := values.getD (h - 1).toNat 0
  let e : ℚ := H - (h : ℚ)
  if e = 0 then v else v + e * (values.getD h.toNat 0 - v)

/-- The static percentileRange table built in init: the 100 values 0..99.
Only its length feeds the quantile computation. -/
def percentileRange : List ℚ := (List.range 100).map (fun i : ℕ => (i : ℚ))

/-- d3.scale.quantile().domain(values).range(percentileRange).quantiles():
d3 v3 sorts the domain ascending and returns the q - 1 thresholds
d3.quantile(sortedDomain, k / q) for k = 1 .. q - 1, where q is the length
of the range (here 100), i.e. the interior percentiles 1 .. 99. -/
def quantileScaleQuantiles (values : List ℚ) : List ℚ :=
  let domain := values.insertionSort (· ≤ ·)
  let q := percentileRange.length
  (List.range (q - 1)).map (fun k : ℕ => d3quantile domain (((k : ℚ) + 1) / (q : ℚ)))

/-- The percentile value sequence built by the converter (identical in both
revisions): the interior quantiles with the dataset minimum prepended
(unshift) and the maximum appended (push). -/
def converterPercentileValues (values : List ℚ) : List ℚ :=
  d3min values :: (quantileScaleQuantiles values ++ [d3max values])

/-- The result loop of the converter: for i = 0..100 push
percentile-point i with value percentiles[i]. -/
def converterPercentiles (values : List ℚ) : List Percentile :=
  (List.range 101).map (fun i : ℕ => { percentile := i, value := (converterPercentileValues values).getD i 0 })

/-- validateValues of the main revision: all values must satisfy
typeof x === "number" and isFinite(x).  NaN and infinities have type
"number" but are not finite. -/
def isFiniteNumber : JSValue → Bool
  | .num _ => true
  | _ => false

/-- validateValues: every element of the array is a finite number. -/
def validateValues (values : List JSValue) : Bool :=
  values.all isFiniteNumber

/-- Read the (validated) numeric values out of the raw dataset.  When
validateValues holds this is exactly the list of numbers the JavaScript
code computes with. -/
def toNums (values : List JSValue) : List ℚ :=
  values.filterMap (fun v => match v with | .num q => some q | _ => none)

namespace Main

/-- static yAxisTitle of the main revision. -/
def yAxisTitle : String := "Percentile"

/-- static MinPrecision. -/
def MinPrecision : ℚ := 0

/-- static DefaultSettings of the main revision. -/
def DefaultSettings : PercentileChartSettings :=
  { fillColor := "teal", precision := 2, xAxisTitle := "" }

/-- The fixed margins of the visual instance. -/
def marginTop : ℚ := 10
/-- Left margin. -/
def marginLeft : ℚ := 10
/-- Right margin. -/
def marginRight : ℚ := 10
/-- Bottom margin. -/
def marginBottom : ℚ := 10

/-- PercentileChart.getPrecision of the main revision: default when the
objects bag is absent, otherwise the configured labels.labelPrecision
clamped from below by MinPrecision. -/
def getPrecision (objects : Option DataViewObjects) : ℚ :=
  match objects with
  | none => DefaultSettings.precision
  | some objs =>
    let precision := getLabelPrecisionValue objs DefaultSettings.precision
    if precision < MinPrecision then MinPrecision else precision

/-- PercentileChart.parseSettings of the main revision. -/
def parseSettings (dataView : DataView) (usedValues : Bool) : Option PercentileChartSettings :=
  match dataView.metadata with
  | none => none
  | some md =>
    match md.columns with
    | none => none
    | some [] => none
    | some (col0 :: restCols) =>
      let objects := md.objects
      let xAxisTitle :=
        if usedValues then
          match restCols with
          | col1 :: _ =>
            if jsTruthyString col0.displayName && jsTruthyString col1.displayName then
              col1.displayName.getD "" ++ " per " ++ col0.displayName.getD ""
            else DefaultSettings.xAxisTitle
          | [] => DefaultSettings.xAxisTitle
        else
          if jsTruthyString col0.displayName then col0.displayName.getD ""
          else DefaultSettings.xAxisTitle
      some { precision := getPrecision objects,
             xAxisTitle := xAxisTitle,
             fillColor := getColorForMeasure objects DefaultSettings.fillColor }

/-- PercentileChart.generateLegends of the main revision: the x-axis title
legend centered below the plot and the fixed rotated "Percentile" legend. -/
def generateLegends (viewport : Viewport) (xAxisTitle : String) : List Legend :=
  [ { transform := some (Transform.translate
        ((viewport.width - marginLeft - marginRight) / 2)
        (viewport.height - marginTop - marginBottom)),
      text := xAxisTitle,
      dx := some "1em",
      dy := some "-1em" },
    { transform := some (Transform.translateAndRotate 0
        ((viewport.height - marginTop - marginBottom) / 2) 0 0 270),
      text := yAxisTitle,
      dx := some "3em" } ]

/-- interface PercentileChartViewModel of the main revision.  The xAxis
and yAxis are built by the external AxisHelper.createAxis; the embedding
records the dataDomain argument handed to it. -/
structure PercentileChartViewModel where
  percentiles : Option (List Percentile)
  settings : Option PercentileChartSettings
  xAxisDataDomain : Option (ℚ × ℚ)
  yAxisDataDomain : Option (ℚ × ℚ)
  legends : List Legend
deriving DecidableEq

/-- The column selection of converter lines 315-328: use the first value
column when it exists and has a values array, otherwise the category
column.  Returns (metadata column, raw values, usedValues). -/
def selectValues (cat : DataViewCategorical) (cat0 : DataViewCategoryColumn)
    (catValues : List JSValue) : Option DataViewMetadataColumn × List JSValue × Bool :=
  match cat.values with
  | some (v0 :: _) =>
    match v0.values with
    | some vs => (v0.source, vs, true)
    | none => (cat0.source, catValues, false)
  | _ => (cat0.source, catValues, false)

/-- PercentileChart.converter of the main revision.  Returns ok none when
the guard rejects the data view (the JavaScript returns null), ok (some
degraded model) on invalid values, and otherwise the assembled view model.
When parseSettings yields null, the later settings.precision access inside
the AxisHelper call would throw a TypeError; this is modelled as error. -/
def converter (dataView : DataView) (viewport : Viewport) :
    Except String (Option PercentileChartViewModel) :=
  match dataView.categorical with
  | none => .ok none
  | some cat =>
    match cat.categories with
    | none => .ok none
    | some [] => .ok none
    | some (cat0 :: _) =>
      match cat0.values with
      | none => .ok none
      | some catValues =>
        if catValues.length = 0 then .ok none
        else
          let sel := selectValues cat cat0 catValues
          let values := sel.2.1
          let usedValues := sel.2.2
          if validateValues values = false then
            .ok (some { percentiles := none, settings := none,
                        xAxisDataDomain := none, yAxisDataDomain := none,
                        legends := generateLegends viewport "Invalid data: Use numeric values" })
          else
            let nums := toNums values
            match parseSettings dataView usedValues with
            | none => .error "TypeError: cannot read property of null settings"
            | some settings =>
              .ok (some { percentiles := some (converterPercentiles nums),
                          settings := some settings,
                          xAxisDataDomain := some (d3min nums, d3max nums),
                          yAxisDataDomain := some (0, 100),
                          legends := generateLegends viewport settings.xAxisTitle })

end Main

namespace Part000

/-- static DefaultSettings of the part_000 revision (default precision 0). -/
def DefaultSettings : PercentileChartSettings :=
  { fillColor := "teal", precision := 0, xAxisTitle := "" }

/-- static MinPrecision of the part_000 revision. -/
def MinPrecision : ℚ := 0

/-- PercentileChart.getPrecision of the part_000 revision: like the main
revision but with a non-strict comparison against MinPrecision. -/
def getPrecision (objects : Option DataViewObjects) : ℚ :=
  match objects with
  | none => DefaultSettings.precision
  | some objs =>
    let precision := getLabelPrecisionValue objs DefaultSettings.precision
    if precision ≤ MinPrecision then MinPrecision else precision

/-- PercentileChart.parseSettings of the part_000 revision: the x-axis
title is columns[0].displayName with the JavaScript or-operator falling
back to the default title. -/
def parseSettings (dataView : DataView) : Option PercentileChartSettings :=
  match dataView.metadata with
  | none => none
  | some md =>
    match md.columns with
    | none => none
    | some [] => none
    | some (col0 :: _) =>
      let objects := md.objects
      some { precision := getPrecision objects,
             xAxisTitle :=
               if jsTruthyString col0.displayName then col0.displayName.getD ""
               else DefaultSettings.xAxisTitle,
             fillColor := getColorForMeasure objects DefaultSettings.fillColor }

/-- JavaScript Math.round: round half toward positive infinity. -/
def jsRound (x : ℚ) : ℤ := ⌊x + 1/2⌋

/-- The x-domain lower bound computed in draw:
Math.round(model.percentiles[0].value / 10.0 - 0.499999) * 10. -/
def drawDomainMin (percentiles : List Percentile) : ℚ :=
  ((jsRound ((percentiles.getD 0 default).value / 10 - 499999/1000000)) : ℚ) * 10

/-- The x-domain upper bound computed in draw:
Math.round(model.percentiles[100].value / 10.0 + 0.499999) * 10. -/
def drawDomainMax (percentiles : List Percentile) : ℚ :=
  ((jsRound ((percentiles.getD 100 default).value / 10 + 499999/1000000)) : ℚ) * 10

/-- The y-axis domain of draw is the fixed interval [0, 100]. -/
def drawYDomain : ℚ × ℚ := (0, 100)

end Part000

/-! ## Facts about the d3 minimum and maximum -/

lemma foldl_min_le_init (x : ℚ) (xs : List ℚ) : xs.foldl min x ≤ x := by
  induction xs generalizing x with
  | nil => simp
  | cons y ys ih => exact le_trans (ih (min x y)) (min_le_left x y)

lemma foldl_min_le_mem (x a : ℚ) (xs : List ℚ) (ha : a ∈ xs) : xs.foldl min x ≤ a := by
  induction xs generalizing x with
  | nil => cases ha
  | cons y ys ih =>
    rcases List.mem_cons.mp ha with rfl | ha2
    · exact le_trans (foldl_min_le_init (min x a) ys) (min_le_right x a)
    · exact ih (min x y) ha2

lemma foldl_min_mem (x : ℚ) (xs : List ℚ) : xs.foldl min x ∈ x :: xs := by
  induction xs generalizing x with
  | nil => simp
  | cons y ys ih =>
    have h := ih (min x y)
    rcases List.mem_cons.mp h with h1 | h2
    · rcases min_choice x y with hc | hc
      · rw [List.foldl_cons, h1, hc]; exact List.mem_cons_self x (y :: ys)
      · rw [List.foldl_cons, h1, hc]
        exact List.mem_cons_of_mem x (List.mem_cons_self y ys)
    · exact List.mem_cons_of_mem x (List.mem_cons_of_mem y h2)

lemma foldl_max_init_le (x : ℚ) (xs : List ℚ) : x ≤ xs.foldl max x := by
  induction xs generalizing x with
  | nil => simp
  | cons y ys ih => exact le_trans (le_max_left x y) (ih (max x y))

lemma foldl_max_mem_le (x a : ℚ) (xs : List ℚ) (ha : a ∈ xs) : a ≤ xs.foldl max x := by
  induction xs generalizing x with
  | nil => cases ha
  | cons y ys ih =>
    rcases List.mem_cons.mp ha with rfl | ha2
    · exact le_trans (le_max_right x a) (foldl_max_init_le (max x a) ys)
    · exact ih (max x y) ha2

lemma foldl_max_mem (x : ℚ) (xs : List ℚ) : xs.foldl max x ∈ x :: xs := by
  induction xs generalizing x with
  | nil => simp
  | cons y ys ih =>
    have h := ih (max x y)
    rcases List.mem_cons.mp h with h1 | h2
    · rcases max_choice x y with hc | hc
      · rw [List.foldl_cons, h1, hc]; exact List.mem_cons_self x (y :: ys)
      · rw [List.foldl_cons, h1, hc]
        exact List.mem_cons_of_mem x (List.mem_cons_self y ys)
    · exact List.mem_cons_of_mem x (List.mem_cons_of_mem y h2)

lemma d3min_le (values : List ℚ) (a : ℚ) (ha : a ∈ values) : d3min values ≤ a := by
  cases values with
  | nil => cases ha
  | cons x xs =>
    rcases List.mem_cons.mp ha with rfl | ha2
    · exact foldl_min_le_init a xs
    · exact foldl_min_le_mem x a xs ha2

lemma d3min_mem (values : List ℚ) (h : values ≠ []) : d3min values ∈ values := by
  cases values with
  | nil => exact absurd rfl h
  | cons x xs => exact foldl_min_mem x xs

lemma le_d3max (values : List ℚ) (a : ℚ) (ha : a ∈ values) : a ≤ d3max values := by
  cases values with
  | nil => cases ha
  | cons x xs =>
    rcases List.mem_cons.mp ha with rfl | ha2
    · exact foldl_max_init_le a xs
    · exact foldl_max_mem_le x a xs ha2

lemma d3max_mem (values : List ℚ) (h : values ≠ []) : d3max values ∈ values := by
  cases values with
  | nil => exact absurd rfl h
  | cons x xs => exact foldl_max_mem x xs

/-! ## Facts about sorted lists -/

lemma sorted_getD_le (s : List ℚ) (hs : s.Sorted (· ≤ ·)) (i j : ℕ)
    (hij : i ≤ j) (hj : j < s.length) : s.getD i 0 ≤ s.getD j 0 := by
  have hi : i < s.length := lt_of_le_of_lt hij hj
  rw [List.getD_eq_getElem s 0 hi, List.getD_eq_getElem s 0 hj]
  have h := hs.rel_get_of_le (a := ⟨i, hi⟩) (b := ⟨j, hj⟩) (Fin.mk_le_mk.mpr hij)
  simpa [List.get_eq_getElem] using h

lemma sortedValues_sorted (values : List ℚ) :
    (values.insertionSort (· ≤ ·)).Sorted (· ≤ ·) :=
  List.sorted_insertionSort (· ≤ ·) values

lemma sortedValues_length (values : List ℚ) :
    (values.insertionSort (· ≤ ·)).length = values.length :=
  List.length_insertionSort (· ≤ ·) values

lemma sortedValues_mem (values : List ℚ) (a : ℚ) :
    a ∈ values.insertionSort (· ≤ ·) ↔ a ∈ values :=
  (List.perm_insertionSort (· ≤ ·) values).mem_iff

/-! ## Facts about d3.quantile -/

lemma d3quantile_eq_interp (values : List ℚ) (p H : ℚ)
    (hH : H = ((values.length : ℚ) - 1) * p + 1) (h : ℤ) (hh : h = ⌊H⌋) :
    d3quantile values p =
      if H - (h : ℚ) = 0 then values.getD (h - 1).toNat 0
      else values.getD (h - 1).toNat 0
        + (H - (h : ℚ)) * (values.getD h.toNat 0 - values.getD (h - 1).toNat 0) := by
  subst hH; subst hh; rfl

/-- On a sorted non-empty list, the d3 type-7 quantile is monotone
non-decreasing in the probability over [0, 1]. -/
lemma d3quantile_mono (s : List ℚ) (hs : s.Sorted (· ≤ ·)) (hne : s ≠ [])
    (p q : ℚ) (hp0 : 0 ≤ p) (hpq : p ≤ q) (hq1 : q ≤ 1) :
    d3quantile s p ≤ d3quantile s q := by
  have hn : 1 ≤ s.length := List.length_pos.mpr hne
  have hN : (1 : ℚ) ≤ (s.length : ℚ) := by exact_mod_cast hn
  have hq0 : 0 ≤ q := le_trans hp0 hpq
  rw [d3quantile_eq_interp s p (((s.length : ℚ) - 1) * p + 1) rfl
        ⌊((s.length : ℚ) - 1) * p + 1⌋ rfl,
      d3quantile_eq_interp s q (((s.length : ℚ) - 1) * q + 1) rfl
        ⌊((s.length : ℚ) - 1) * q + 1⌋ rfl]
  set H1 : ℚ := ((s.length : ℚ) - 1) * p + 1 with hH1
  set H2 : ℚ := ((s.length : ℚ) - 1) * q + 1 with hH2
  set h1 : ℤ := ⌊H1⌋ with hh1
  set h2 : ℤ := ⌊H2⌋ with hh2
  have base : (0 : ℚ) ≤ (s.length : ℚ) - 1 := by linarith
  have hH1ge : (1 : ℚ) ≤ H1 := by
    rw [hH1]; linarith [mul_nonneg base hp0]
  have hH2ge : (1 : ℚ) ≤ H2 := by
    rw [hH2]; linarith [mul_nonneg base hq0]
  have hH12 : H1 ≤ H2 := by
    rw [hH1, hH2]; nlinarith [mul_nonneg base (sub_nonneg.mpr hpq)]
  have hH2le : H2 ≤ (s.length : ℚ) := by
    rw [hH2]; nlinarith [mul_nonneg base (sub_nonneg.mpr hq1)]
  have hH1le : H1 ≤ (s.length : ℚ) := le_trans hH12 hH2le
  have hh1ge : 1 ≤ h1 := Int.le_floor.mpr (by exact_mod_cast hH1ge)
  have hh2ge : 1 ≤ h2 := Int.le_floor.mpr (by exact_mod_cast hH2ge)
  have hh12 : h1 ≤ h2 := Int.floor_mono hH12
  have hh2le : h2 ≤ (s.length : ℤ) := by
    have h := Int.floor_mono hH2le
    rwa [Int.floor_natCast] at h
  have hh1le : h1 ≤ (s.length : ℤ) := le_trans hh12 hh2le
  have hf1le : (h1 : ℚ) ≤ H1 := Int.floor_le H1
  have hf2le : (h2 : ℚ) ≤ H2 := Int.floor_le H2
  have hf1lt : H1 < (h1 : ℚ) + 1 := Int.lt_floor_add_one H1
  have hin2 : H2 - (h2 : ℚ) ≠ 0 → h2.toNat < s.length := by
    intro he
    have hlt : (h2 : ℚ) < H2 := lt_of_le_of_ne hf2le (fun hcontra => he (by rw [← hcontra]; ring))
    have hlt2 : (h2 : ℚ) < (s.length : ℚ) := lt_of_lt_of_le hlt hH2le
    have hlt3 : h2 < (s.length : ℤ) := by exact_mod_cast hlt2
    omega
  rcases eq_or_lt_of_le hh12 with heq | hlt
  · -- same interpolation cell
    have hcast : (h1 : ℚ) = (h2 : ℚ) := by rw [heq]
    have hA : (h1 - 1).toNat ≤ h1.toNat := by omega
    rcases eq_or_ne (H1 - (h1 : ℚ)) 0 with he1 | he1 <;>
      rcases eq_or_ne (H2 - (h2 : ℚ)) 0 with he2 | he2
    · rw [if_pos he1, if_pos he2, ← heq]
    · -- left endpoint versus interpolated value in the same cell
      rw [if_pos he1, if_neg he2, ← heq]
      have hBin : h1.toNat < s.length := by
        have := hin2 he2
        omega
      have hAB : s.getD (h1 - 1).toNat 0 ≤ s.getD h1.toNat 0 :=
        sorted_getD_le s hs _ _ hA hBin
      have he2nn : 0 ≤ H2 - (h1 : ℚ) := by rw [hcast]; linarith
      linarith [mul_nonneg he2nn (sub_nonneg.mpr hAB)]
    · -- impossible: the smaller probability is strictly inside the cell
      -- while the larger one sits on its left edge
      exfalso
      have hlt1 : (h1 : ℚ) < H1 :=
        lt_of_le_of_ne hf1le (fun hcontra => he1 (by rw [← hcontra]; ring))
      have hzz : H2 = (h2 : ℚ) := by linarith [sub_eq_zero.mp he2]
      rw [← hcast] at hzz
      linarith
    · -- two interpolated values in the same cell
      rw [if_neg he1, if_neg he2, ← heq]
      have hBin : h1.toNat < s.length := by
        have := hin2 he2
        omega
      have hAB : s.getD (h1 - 1).toNat 0 ≤ s.getD h1.toNat 0 :=
        sorted_getD_le s hs _ _ hA hBin
      have hee : H1 - (h1 : ℚ) ≤ H2 - (h1 : ℚ) := by rw [hcast]; linarith
      nlinarith [mul_nonneg (sub_nonneg.mpr hee) (sub_nonneg.mpr hAB)]
  · -- the larger probability lies in a later cell
    have hBin : h1.toNat < s.length := by omega
    have hCin : (h2 - 1).toNat < s.length := by omega
    have hAB : s.getD (h1 - 1).toNat 0 ≤ s.getD h1.toNat 0 :=
      sorted_getD_le s hs _ _ (by omega) hBin
    have hBC : s.getD h1.toNat 0 ≤ s.getD (h2 - 1).toNat 0 :=
      sorted_getD_le s hs _ _ (by omega) hCin
    have he1nn : 0 ≤ H1 - (h1 : ℚ) := by linarith
    have he1lt : H1 - (h1 : ℚ) < 1 := by linarith
    have he2nn : 0 ≤ H2 - (h2 : ℚ) := by linarith
    rcases eq_or_ne (H1 - (h1 : ℚ)) 0 with he1 | he1 <;>
      rcases eq_or_ne (H2 - (h2 : ℚ)) 0 with he2 | he2
    · rw [if_pos he1, if_pos he2]
      exact le_trans hAB hBC
    · rw [if_pos he1, if_neg he2]
      have hDin : h2.toNat < s.length := hin2 he2
      have hCD : s.getD (h2 - 1).toNat 0 ≤ s.getD h2.toNat 0 :=
        sorted_getD_le s hs _ _ (by omega) hDin
      nlinarith [mul_nonneg he2nn (sub_nonneg.mpr hCD)]
    · rw [if_neg he1, if_pos he2]
      nlinarith [mul_nonneg (by linarith : (0:ℚ) ≤ 1 - (H1 - (h1 : ℚ)))
        (sub_nonneg.mpr hAB)]
    · rw [if_neg he1, if_neg he2]
      have hDin : h2.toNat < s.length := hin2 he2
      have hCD : s.getD (h2 - 1).toNat 0 ≤ s.getD h2.toNat 0 :=
        sorted_getD_le s hs _ _ (by omega) hDin
      nlinarith [mul_nonneg (by linarith : (0:ℚ) ≤ 1 - (H1 - (h1 : ℚ)))
        (sub_nonneg.mpr hAB),
        mul_nonneg he2nn (sub_nonneg.mpr hCD)]

/-! ## The percentile sequence of the converter -/

lemma percentileRange_length : percentileRange.length = 100 := by
  simp [percentileRange]

lemma quantileScaleQuantiles_getD (values : List ℚ) (j : ℕ) (hj : j < 99) :
    (quantileScaleQuantiles values).getD j 0 =
      d3quantile (values.insertionSort (· ≤ ·)) (((j : ℚ) + 1) / 100) := by
  show ((List.range (percentileRange.length - 1)).map
      (fun k : ℕ => d3quantile (values.insertionSort (· ≤ ·))
        (((k : ℚ) + 1) / (percentileRange.length : ℚ)))).getD j 0 = _
  rw [percentileRange_length]
  rw [List.getD_eq_getElem _ _ (by simpa using hj)]
  norm_num

lemma quantileScaleQuantiles_length (values : List ℚ) :
    (quantileScaleQuantiles values).length = 99 := by
  show ((List.range (percentileRange.length - 1)).map
      (fun k : ℕ => d3quantile (values.insertionSort (· ≤ ·))
        (((k : ℚ) + 1) / (percentileRange.length : ℚ)))).length = 99
  rw [percentileRange_length]
  simp

lemma converterPercentileValues_length (values : List ℚ) :
    (converterPercentileValues values).length = 101 := by
  simp [converterPercentileValues, quantileScaleQuantiles_length]

lemma converterPercentiles_length (values : List ℚ) :
    (converterPercentiles values).length = 101 := by
  simp [converterPercentiles]

lemma converterPercentiles_getD (values : List ℚ) (i : ℕ) (hi : i < 101) :
    (converterPercentiles values).getD i default =
      { percentile := i, value := (converterPercentileValues values).getD i 0 } := by
  unfold converterPercentiles
  rw [List.getD_eq_getElem _ _ (by simpa using hi)]
  simp

lemma converterPercentileValues_getD_zero (values : List ℚ) :
    (converterPercentileValues values).getD 0 0 = d3min values := rfl

lemma converterPercentileValues_getD_hundred (values : List ℚ) :
    (converterPercentileValues values).getD 100 0 = d3max values := by
  have hq := quantileScaleQuantiles_length values
  unfold converterPercentileValues
  rw [show (100 : ℕ) = 99 + 1 from rfl, List.getD_cons_succ]
  rw [List.getD_eq_getElem _ _ (by simp [hq])]
  rw [List.getElem_append_right (by omega)]
  simp [hq]

lemma converterPercentileValues_getD_interior (values : List ℚ) (i : ℕ)
    (h1 : 1 ≤ i) (h2 : i ≤ 99) :
    (converterPercentileValues values).getD i 0 =
      d3quantile (values.insertionSort (· ≤ ·)) ((i : ℚ) / 100) := by
  have hq := quantileScaleQuantiles_length values
  obtain ⟨j, rfl⟩ : ∃ j, i = j + 1 := ⟨i - 1, by omega⟩
  unfold converterPercentileValues
  rw [List.getD_cons_succ]
  have happ : (quantileScaleQuantiles values ++ [d3max values]).getD j 0 =
      (quantileScaleQuantiles values).getD j 0 := by
    rw [List.getD_eq_getElem _ _ (by simp [hq]; omega),
      List.getElem_append_left (by omega),
      List.getD_eq_getElem _ _ (by omega)]
  rw [happ, quantileScaleQuantiles_getD values j (by omega)]
  congr 1
  push_cast
  ring

/-! ## The d3 quantile at the endpoints -/

lemma d3quantile_at_zero (s : List ℚ) : d3quantile s 0 = s.getD 0 0 := by
  rw [d3quantile_eq_interp s 0 (((s.length : ℚ) - 1) * 0 + 1) rfl
    ⌊((s.length : ℚ) - 1) * 0 + 1⌋ rfl]
  norm_num

lemma d3quantile_at_one (s : List ℚ) : d3quantile s 1 = s.getD (s.length - 1) 0 := by
  rw [d3quantile_eq_interp s 1 (((s.length : ℚ) - 1) * 1 + 1) rfl
    ⌊((s.length : ℚ) - 1) * 1 + 1⌋ rfl]
  have h1 : ((s.length : ℚ) - 1) * 1 + 1 = (s.length : ℚ) := by ring
  rw [h1, Int.floor_natCast]
  have h2 : (((s.length : ℤ)) - 1).toNat = s.length - 1 := by omega
  rw [if_pos (by push_cast; ring), h2]

lemma sortedValues_ne_nil (values : List ℚ) (hne : values ≠ []) :
    values.insertionSort (· ≤ ·) ≠ [] := by
  intro h
  apply hne
  have hl := sortedValues_length values
  rw [h] at hl
  exact List.length_eq_zero.mp hl.symm

lemma sorted_getD_zero_le (s : List ℚ) (hs : s.Sorted (· ≤ ·)) (b : ℚ) (hb : b ∈ s) :
    s.getD 0 0 ≤ b := by
  obtain ⟨j, hjlt, hj⟩ := List.mem_iff_getElem.mp hb
  have h := sorted_getD_le s hs 0 j (Nat.zero_le j) hjlt
  rwa [List.getD_eq_getElem _ _ hjlt, hj] at h

lemma sorted_le_getD_last (s : List ℚ) (hs : s.Sorted (· ≤ ·)) (b : ℚ) (hb : b ∈ s) :
    b ≤ s.getD (s.length - 1) 0 := by
  obtain ⟨j, hjlt, hj⟩ := List.mem_iff_getElem.mp hb
  have h := sorted_getD_le s hs j (s.length - 1) (by omega) (by omega)
  rwa [List.getD_eq_getElem _ _ hjlt, hj] at h

lemma d3min_eq_sorted_getD_zero (values : List ℚ) (hne : values ≠ []) :
    d3min values = (values.insertionSort (· ≤ ·)).getD 0 0 := by
  have hs := sortedValues_sorted values
  have hsne := sortedValues_ne_nil values hne
  have hlen : 0 < (values.insertionSort (· ≤ ·)).length := List.length_pos.mpr hsne
  have hmem : (values.insertionSort (· ≤ ·)).getD 0 0 ∈ values := by
    rw [← sortedValues_mem values]
    rw [List.getD_eq_getElem _ _ hlen]
    exact List.getElem_mem hlen
  apply le_antisymm
  · exact d3min_le values _ hmem
  · exact sorted_getD_zero_le _ hs _
      ((sortedValues_mem values _).mpr (d3min_mem values hne))

lemma d3max_eq_sorted_getD_last (values : List ℚ) (hne : values ≠ []) :
    d3max values =
      (values.insertionSort (· ≤ ·)).getD ((values.insertionSort (· ≤ ·)).length - 1) 0 := by
  have hs := sortedValues_sorted values
  have hsne := sortedValues_ne_nil values hne
  have hlen : 0 < (values.insertionSort (· ≤ ·)).length := List.length_pos.mpr hsne
  have hmem : (values.insertionSort (· ≤ ·)).getD
      ((values.insertionSort (· ≤ ·)).length - 1) 0 ∈ values := by
    rw [← sortedValues_mem values]
    rw [List.getD_eq_getElem _ _ (by omega)]
    exact List.getElem_mem (by omega)
  apply le_antisymm
  · exact sorted_le_getD_last _ hs _
      ((sortedValues_mem values _).mpr (d3max_mem values hne))
  · exact le_d3max values _ hmem

/-- Every point value of the converter is the d3 quantile of the sorted
dataset at probability i / 100, for i = 0 .. 100. -/
lemma converterPercentiles_value (values : List ℚ) (hne : values ≠ []) (i : ℕ)
    (hi : i ≤ 100) :
    ((converterPercentiles values).getD i default).value =
      d3quantile (values.insertionSort (· ≤ ·)) ((i : ℚ) / 100) := by
  rw [converterPercentiles_getD values i (by omega)]
  show (converterPercentileValues values).getD i 0 = _
  rcases Nat.eq_zero_or_pos i with rfl | hpos
  · rw [converterPercentileValues_getD_zero, d3min_eq_sorted_getD_zero values hne]
    norm_num [d3quantile_at_zero]
  · rcases eq_or_lt_of_le hi with rfl | hlt
    · rw [converterPercentileValues_getD_hundred, d3max_eq_sorted_getD_last values hne]
      have h100 : ((100 : ℕ) : ℚ) / 100 = 1 := by norm_num
      rw [h100, d3quantile_at_one]
    · rw [converterPercentileValues_getD_interior values i hpos (by omega)]

/-! ## Claim C1 -/

/-- C1: for every non-empty (validated numeric) dataset, the converter
produces exactly 101 percentile points with points[i].percentile = i for
i = 0..100, points[0].value equal to the dataset minimum and
points[100].value equal to the dataset maximum. -/
theorem claim_c1 (values : List ℚ) (hne : values ≠ []) :
    (converterPercentiles values).length = 101 ∧
    (∀ i, i < 101 → ((converterPercentiles values).getD i default).percentile = i) ∧
    ((converterPercentiles values).getD 0 default).value ∈ values ∧
    (∀ a ∈ values, ((converterPercentiles values).getD 0 default).value ≤ a) ∧
    ((converterPercentiles values).getD 100 default).value ∈ values ∧
    (∀ a ∈ values, a ≤ ((converterPercentiles values).getD 100 default).value) := by
  refine ⟨converterPercentiles_length values, ?_, ?_, ?_, ?_, ?_⟩
  · intro i hi
    rw [converterPercentiles_getD values i hi]
  · rw [converterPercentiles_getD values 0 (by norm_num)]
    show (converterPercentileValues values).getD 0 0 ∈ values
    rw [converterPercentileValues_getD_zero]
    exact d3min_mem values hne
  · intro a ha
    rw [converterPercentiles_getD values 0 (by norm_num)]
    show (converterPercentileValues values).getD 0 0 ≤ a
    rw [converterPercentileValues_getD_zero]
    exact d3min_le values a ha
  · rw [converterPercentiles_getD values 100 (by norm_num)]
    show (converterPercentileValues values).getD 100 0 ∈ values
    rw [converterPercentileValues_getD_hundred]
    exact d3max_mem values hne
  · intro a ha
    rw [converterPercentiles_getD values 100 (by norm_num)]
    show a ≤ (converterPercentileValues values).getD 100 0
    rw [converterPercentileValues_getD_hundred]
    exact le_d3max values a ha

/-- Witness for C1 at the concrete dataset [3, 1, 2]. -/
theorem claim_c1_witness :
    (converterPercentiles [3, 1, 2]).length = 101 ∧
    (∀ i, i < 101 → ((converterPercentiles [3, 1, 2]).getD i default).percentile = i) ∧
    ((converterPercentiles [3, 1, 2]).getD 0 default).value ∈ ([3, 1, 2] : List ℚ) ∧
    (∀ a ∈ ([3, 1, 2] : List ℚ),
      ((converterPercentiles [3, 1, 2]).getD 0 default).value ≤ a) ∧
    ((converterPercentiles [3, 1, 2]).getD 100 default).value ∈ ([3, 1, 2] : List ℚ) ∧
    (∀ a ∈ ([3, 1, 2] : List ℚ),
      a ≤ ((converterPercentiles [3, 1, 2]).getD 100 default).value) :=
  claim_c1 [3, 1, 2] (by simp)

/-! ## Claim C2 -/

/-- C2: for every non-empty dataset, the point values of the converter are
weakly monotone: points[i].value is at most points[i+1].value for every i
from 0 to 99. -/
theorem claim_c2 (values : List ℚ) (hne : values ≠ []) (i : ℕ) (hi : i ≤ 99) :
    ((converterPercentiles values).getD i default).value ≤
      ((converterPercentiles values).getD (i + 1) default).value := by
  rw [converterPercentiles_value values hne i (by omega),
      converterPercentiles_value values hne (i + 1) (by omega)]
  apply d3quantile_mono _ (sortedValues_sorted values) (sortedValues_ne_nil values hne)
  · positivity
  · have hc : (((i + 1 : ℕ)) : ℚ) = (i : ℚ) + 1 := by push_cast; ring
    rw [hc]
    gcongr
    linarith
  · have hc : (((i + 1 : ℕ)) : ℚ) = (i : ℚ) + 1 := by push_cast; ring
    rw [hc, div_le_one (by norm_num)]
    have : (i : ℚ) ≤ 99 := by exact_mod_cast hi
    linarith

/-- Witness for C2 at the concrete dataset [2, 7, 5] and index 0. -/
theorem claim_c2_witness :
    ((converterPercentiles [2, 7, 5]).getD 0 default).value ≤
      ((converterPercentiles [2, 7, 5]).getD 1 default).value :=
  claim_c2 [2, 7, 5] (by simp) 0 (by norm_num)

/-! ## Claim C6 -/

/-- C6: for a dataset that repeats a single value v (n copies, n > 0), the
converter still produces its 101 points and every point value equals v;
the zero-spread case min = max does not fail. -/
theorem claim_c6 (v : ℚ) (n : ℕ) (hn : 0 < n) :
    (converterPercentiles (List.replicate n v)).length = 101 ∧
    ∀ pt ∈ converterPercentiles (List.replicate n v), pt.value = v := by
  have hne : List.replicate n v ≠ [] := by
    intro h
    rw [List.replicate_eq_nil_iff] at h
    omega
  refine ⟨converterPercentiles_length _, ?_⟩
  intro pt hpt
  obtain ⟨i, hirange, heq⟩ := List.mem_map.mp hpt
  have hi : i < 101 := List.mem_range.mp hirange
  have hval : pt.value = ((converterPercentiles (List.replicate n v)).getD i default).value := by
    rw [converterPercentiles_getD _ i hi, ← heq]
  rw [hval, converterPercentiles_value _ hne i (by omega)]
  have hmin : d3min (List.replicate n v) = v :=
    List.eq_of_mem_replicate (d3min_mem _ hne)
  have hmax : d3max (List.replicate n v) = v :=
    List.eq_of_mem_replicate (d3max_mem _ hne)
  have hs := sortedValues_sorted (List.replicate n v)
  have hsne := sortedValues_ne_nil _ hne
  have hp0 : (0 : ℚ) ≤ (i : ℚ) / 100 := by positivity
  have hp1 : (i : ℚ) / 100 ≤ 1 := by
    rw [div_le_one (by norm_num)]
    have : (i : ℚ) ≤ 100 := by exact_mod_cast (by omega : i ≤ 100)
    linarith
  have h1 := d3quantile_mono _ hs hsne 0 ((i : ℚ) / 100) (le_refl 0) hp0 hp1
  have h2 := d3quantile_mono _ hs hsne ((i : ℚ) / 100) 1 hp0 hp1 (le_refl 1)
  rw [d3quantile_at_zero] at h1
  rw [d3quantile_at_one] at h2
  have e1 : ((List.replicate n v).insertionSort (· ≤ ·)).getD 0 0 = v := by
    rw [← d3min_eq_sorted_getD_zero _ hne, hmin]
  have e2 : ((List.replicate n v).insertionSort (· ≤ ·)).getD
      (((List.replicate n v).insertionSort (· ≤ ·)).length - 1) 0 = v := by
    rw [← d3max_eq_sorted_getD_last _ hne, hmax]
  rw [e1] at h1
  rw [e2] at h2
  linarith

/-- Witness for C6 at the concrete dataset [5, 5, 5, 5]. -/
theorem claim_c6_witness :
    (converterPercentiles (List.replicate 4 (5 : ℚ))).length = 101 ∧
    ∀ pt ∈ converterPercentiles (List.replicate 4 (5 : ℚ)), pt.value = 5 :=
  claim_c6 5 4 (by norm_num)

/-! ## Claim C9 -/

/-- The uniformly spaced dataset 1, 2, ..., 100. -/
def dataset100 : List ℚ := (List.range 100).map (fun k : ℕ => ((k : ℚ) + 1))

lemma dataset100_length : dataset100.length = 100 := by
  simp [dataset100]

lemma dataset100_sorted : dataset100.Sorted (· ≤ ·) := by
  apply List.Pairwise.map (fun k : ℕ => ((k : ℚ) + 1))
    (fun a b hab => by
      have hc : (a : ℚ) < b := by exact_mod_cast hab
      show (a : ℚ) + 1 ≤ (b : ℚ) + 1
      linarith)
  exact List.pairwise_lt_range 100

lemma dataset100_getD (j : ℕ) (hj : j < 100) :
    dataset100.getD j 0 = (j : ℚ) + 1 := by
  unfold dataset100
  rw [List.getD_eq_getElem _ _ (by simpa using hj)]
  simp

/-- C9: for the uniformly spaced dataset [1, 2, ..., 100], the converter
mapping is approximately linear: points[50].value lies between 50 and 51
(it equals 50.5). -/
theorem claim_c9 :
    50 ≤ ((converterPercentiles dataset100).getD 50 default).value ∧
    ((converterPercentiles dataset100).getD 50 default).value ≤ 51 := by
  have hne : dataset100 ≠ [] := by
    intro h
    have := dataset100_length
    rw [h] at this
    simp at this
  have hss : dataset100.insertionSort (· ≤ ·) = dataset100 :=
    List.Sorted.insertionSort_eq dataset100_sorted
  have hfloor : ⌊(101 / 2 : ℚ)⌋ = 50 := by
    rw [Int.floor_eq_iff]
    norm_num
  have hq : d3quantile dataset100 (((50 : ℕ) : ℚ) / 100) = 101 / 2 := by
    rw [d3quantile_eq_interp dataset100 (((50 : ℕ) : ℚ) / 100) (101 / 2)
      (by rw [dataset100_length]; norm_num) 50 hfloor.symm]
    rw [if_neg (by push_cast; norm_num)]
    have h49 : ((50 : ℤ) - 1).toNat = 49 := by omega
    have h50 : ((50 : ℤ)).toNat = 50 := by omega
    rw [h49, h50, dataset100_getD 49 (by norm_num), dataset100_getD 50 (by norm_num)]
    push_cast
    norm_num
  rw [converterPercentiles_value dataset100 hne 50 (by norm_num), hss, hq]
  norm_num

/-! ## Claim C4 -/

/-- C4: precision resolution clamps to a minimum of 0 and never rejects:
a configured precision p resolves to p when p is non-negative and to 0
when p is negative, and an absent configuration resolves to the default
of the revision (2 in the main revision, 0 in part_000).  Both revisions
are covered. -/
theorem claim_c4 (p : ℚ) (objs : DataViewObjects) (hp : objs.labelPrecision = some p) :
    (0 ≤ p → Main.getPrecision (some objs) = p) ∧
    (p < 0 → Main.getPrecision (some objs) = 0) ∧
    Main.getPrecision none = Main.DefaultSettings.precision ∧
    (∀ objs2 : DataViewObjects, objs2.labelPrecision = none →
      Main.getPrecision (some objs2) = Main.DefaultSettings.precision) ∧
    (0 ≤ p → Part000.getPrecision (some objs) = p) ∧
    (p < 0 → Part000.getPrecision (some objs) = 0) ∧
    Part000.getPrecision none = Part000.DefaultSettings.precision ∧
    (∀ objs2 : DataViewObjects, objs2.labelPrecision = none →
      Part000.getPrecision (some objs2) = Part000.DefaultSettings.precision) := by
  have hmain : Main.getPrecision (some objs) = if p < 0 then 0 else p := by
    simp [Main.getPrecision, getLabelPrecisionValue, hp, Main.MinPrecision]
  have hpart : Part000.getPrecision (some objs) = if p ≤ 0 then 0 else p := by
    simp [Part000.getPrecision, getLabelPrecisionValue, hp, Part000.MinPrecision]
  refine ⟨?_, ?_, rfl, ?_, ?_, ?_, rfl, ?_⟩
  · intro h
    rw [hmain, if_neg (not_lt.mpr h)]
  · intro h
    rw [hmain, if_pos h]
  · intro objs2 h2
    simp [Main.getPrecision, getLabelPrecisionValue, h2, Main.MinPrecision,
      Main.DefaultSettings]
  · intro h
    rcases eq_or_lt_of_le h with heq | hlt
    · rw [hpart, if_pos (le_of_eq heq.symm), ← heq]
    · rw [hpart, if_neg (not_le.mpr hlt)]
  · intro h
    rw [hpart, if_pos (le_of_lt h)]
  · intro objs2 h2
    simp [Part000.getPrecision, getLabelPrecisionValue, h2, Part000.MinPrecision,
      Part000.DefaultSettings]

/-- Witness for C4: configured precision -3 resolves to 0 and configured
precision 4 resolves to 4, in both revisions. -/
theorem claim_c4_witness :
    Main.getPrecision (some { labelPrecision := some (-3), fill := none }) = 0 ∧
    Main.getPrecision (some { labelPrecision := some 4, fill := none }) = 4 ∧
    Part000.getPrecision (some { labelPrecision := some (-3), fill := none }) = 0 ∧
    Part000.getPrecision (some { labelPrecision := some 4, fill := none }) = 4 :=
  ⟨(claim_c4 (-3) _ rfl).2.1 (by norm_num),
   (claim_c4 4 _ rfl).1 (by norm_num),
   (claim_c4 (-3) _ rfl).2.2.2.2.2.1 (by norm_num),
   (claim_c4 4 _ rfl).2.2.2.2.1 (by norm_num)⟩

/-! ## Claim C5 -/

lemma converter_point_zero_value (values : List ℚ) :
    ((converterPercentiles values).getD 0 default).value = d3min values := by
  rw [converterPercentiles_getD values 0 (by norm_num)]
  show (converterPercentileValues values).getD 0 0 = d3min values
  rw [converterPercentileValues_getD_zero]

lemma converter_point_hundred_value (values : List ℚ) :
    ((converterPercentiles values).getD 100 default).value = d3max values := by
  rw [converterPercentiles_getD values 100 (by norm_num)]
  show (converterPercentileValues values).getD 100 0 = d3max values
  rw [converterPercentileValues_getD_hundred]

/-- Rounding down with the 0.499999 slack agrees with the exact floor on
integer inputs. -/
lemma floor_add_small_eps (z : ℤ) :
    ⌊(z : ℚ) / 10 + 1 / 1000000⌋ = ⌊(z : ℚ) / 10⌋ := by
  obtain ⟨q, r, hr0, hr10, hz⟩ : ∃ q r : ℤ, 0 ≤ r ∧ r < 10 ∧ z = 10 * q + r :=
    ⟨z / 10, z % 10, Int.emod_nonneg z (by norm_num),
      Int.emod_lt_of_pos z (by norm_num), (Int.ediv_add_emod z 10).symm⟩
  subst hz
  have hr0q : (0 : ℚ) ≤ (r : ℚ) := by exact_mod_cast hr0
  have hr9 : (r : ℚ) ≤ 9 := by exact_mod_cast (by omega : r ≤ 9)
  have h1 : ((10 * q + r : ℤ) : ℚ) / 10 = (q : ℚ) + (r : ℚ) / 10 := by
    push_cast; ring
  have h2 : ((10 * q + r : ℤ) : ℚ) / 10 + 1 / 1000000
      = (q : ℚ) + ((r : ℚ) / 10 + 1 / 1000000) := by
    push_cast; ring
  rw [h2, h1, Int.floor_int_add, Int.floor_int_add]
  have f1 : ⌊(r : ℚ) / 10 + 1 / 1000000⌋ = 0 := by
    rw [Int.floor_eq_iff]
    constructor
    · push_cast
      linarith
    · push_cast
      linarith
  have f2 : ⌊(r : ℚ) / 10⌋ = 0 := by
    rw [Int.floor_eq_iff]
    constructor
    · push_cast
      linarith
    · push_cast
      linarith
  rw [f1, f2]

/-- Rounding up with the 0.499999 slack agrees with the exact ceiling on
integer inputs. -/
lemma floor_add_big_eps (z : ℤ) :
    ⌊(z : ℚ) / 10 + 999999 / 1000000⌋ = ⌈(z : ℚ) / 10⌉ := by
  obtain ⟨q, r, hr0, hr10, hz⟩ : ∃ q r : ℤ, 0 ≤ r ∧ r < 10 ∧ z = 10 * q + r :=
    ⟨z / 10, z % 10, Int.emod_nonneg z (by norm_num),
      Int.emod_lt_of_pos z (by norm_num), (Int.ediv_add_emod z 10).symm⟩
  subst hz
  have hr0q : (0 : ℚ) ≤ (r : ℚ) := by exact_mod_cast hr0
  have hr9 : (r : ℚ) ≤ 9 := by exact_mod_cast (by omega : r ≤ 9)
  have h1 : ((10 * q + r : ℤ) : ℚ) / 10 = (r : ℚ) / 10 + (q : ℚ) := by
    push_cast; ring
  have h2 : ((10 * q + r : ℤ) : ℚ) / 10 + 999999 / 1000000
      = ((r : ℚ) / 10 + 999999 / 1000000) + (q : ℚ) := by
    push_cast; ring
  rw [h2, h1, Int.floor_add_int, Int.ceil_add_int]
  rcases eq_or_lt_of_le hr0 with heq | hpos
  · have hre : (r : ℚ) = 0 := by exact_mod_cast heq.symm
    rw [hre]
    norm_num
  · have hrp : (0 : ℚ) < (r : ℚ) := by exact_mod_cast hpos
    have f1 : ⌊(r : ℚ) / 10 + 999999 / 1000000⌋ = 1 := by
      rw [Int.floor_eq_iff]
      constructor
      · push_cast
        have : (1 : ℚ) ≤ (r : ℚ) := by exact_mod_cast hpos
        linarith
      · push_cast
        linarith
    have f2 : ⌈(r : ℚ) / 10⌉ = 1 := by
      rw [Int.ceil_eq_iff]
      constructor
      · push_cast
        linarith
      · push_cast
        linarith
    rw [f1, f2]

/-- C5: the draw x-domain of the part_000 revision is [min, max] rounded
outward to multiples of 10.  On any dataset the code computes the floor
of min/10 and max/10 shifted by the small slack 1/1000000 (the claim's
epsilon, keeping exact multiples inclusive); on integer-valued datasets
this is exactly 10 * floor(min / 10) and 10 * ceil(max / 10).  The
rounded endpoints are taken at the dataset minimum and maximum, and the
y-domain is the fixed interval [0, 100]. -/
theorem claim_c5 (values : List ℚ) (hne : values ≠ []) :
    Part000.drawDomainMin (converterPercentiles values) =
      10 * ((⌊((converterPercentiles values).getD 0 default).value / 10
        + 1 / 1000000⌋ : ℤ) : ℚ) ∧
    Part000.drawDomainMax (converterPercentiles values) =
      10 * ((⌊((converterPercentiles values).getD 100 default).value / 10
        + 999999 / 1000000⌋ : ℤ) : ℚ) ∧
    ((∀ x ∈ values, ∃ z : ℤ, x = (z : ℚ)) →
      Part000.drawDomainMin (converterPercentiles values) =
        10 * ((⌊((converterPercentiles values).getD 0 default).value / 10⌋ : ℤ) : ℚ) ∧
      Part000.drawDomainMax (converterPercentiles values) =
        10 * ((⌈((converterPercentiles values).getD 100 default).value / 10⌉ : ℤ) : ℚ)) ∧
    ((converterPercentiles values).getD 0 default).value ∈ values ∧
    (∀ a ∈ values, ((converterPercentiles values).getD 0 default).value ≤ a) ∧
    ((converterPercentiles values).getD 100 default).value ∈ values ∧
    (∀ a ∈ values, a ≤ ((converterPercentiles values).getD 100 default).value) ∧
    Part000.drawYDomain = (0, 100) := by
  have hv0 := converter_point_zero_value values
  have hv100 := converter_point_hundred_value values
  have hmem0 : ((converterPercentiles values).getD 0 default).value ∈ values := by
    rw [hv0]; exact d3min_mem values hne
  have hmem100 : ((converterPercentiles values).getD 100 default).value ∈ values := by
    rw [hv100]; exact d3max_mem values hne
  have hgenMin : Part000.drawDomainMin (converterPercentiles values) =
      10 * ((⌊((converterPercentiles values).getD 0 default).value / 10
        + 1 / 1000000⌋ : ℤ) : ℚ) := by
    unfold Part000.drawDomainMin Part000.jsRound
    rw [show ((converterPercentiles values).getD 0 default).value / 10
        - 499999 / 1000000 + 1 / 2
        = ((converterPercentiles values).getD 0 default).value / 10
          + 1 / 1000000 from by ring]
    ring
  have hgenMax : Part000.drawDomainMax (converterPercentiles values) =
      10 * ((⌊((converterPercentiles values).getD 100 default).value / 10
        + 999999 / 1000000⌋ : ℤ) : ℚ) := by
    unfold Part000.drawDomainMax Part000.jsRound
    rw [show ((converterPercentiles values).getD 100 default).value / 10
        + 499999 / 1000000 + 1 / 2
        = ((converterPercentiles values).getD 100 default).value / 10
          + 999999 / 1000000 from by ring]
    ring
  refine ⟨hgenMin, hgenMax, ?_, hmem0, ?_, hmem100, ?_, rfl⟩
  · intro hint
    obtain ⟨z0, hz0⟩ := hint _ hmem0
    obtain ⟨z100, hz100⟩ := hint _ hmem100
    constructor
    · rw [hgenMin, hz0, floor_add_small_eps z0]
    · rw [hgenMax, hz100, floor_add_big_eps z100]
  · intro a ha
    rw [hv0]
    exact d3min_le values a ha
  · intro a ha
    rw [hv100]
    exact le_d3max values a ha

/-- Witness for C5: the dataset [13, 77] yields the x-domain [10, 80] and
the fixed y-domain [0, 100]. -/
theorem claim_c5_witness :
    Part000.drawDomainMin (converterPercentiles [13, 77]) = 10 ∧
    Part000.drawDomainMax (converterPercentiles [13, 77]) = 80 ∧
    Part000.drawYDomain = (0, 100) := by
  have h := (claim_c5 [13, 77] (by simp)).2.2.1
    (by
      intro x hx
      simp only [List.mem_cons, List.not_mem_nil, or_false] at hx
      rcases hx with rfl | rfl
      · exact ⟨13, by norm_num⟩
      · exact ⟨77, by norm_num⟩)
  have hmin : d3min [(13 : ℚ), 77] = 13 := by
    show List.foldl min 13 [(77 : ℚ)] = 13
    simp [min_def]
    norm_num
  have hmax : d3max [(13 : ℚ), 77] = 77 := by
    show List.foldl max 13 [(77 : ℚ)] = 77
    simp [max_def]
    norm_num
  refine ⟨?_, ?_, rfl⟩
  · rw [h.1, converter_point_zero_value, hmin]
    have : ⌊(13 : ℚ) / 10⌋ = 1 := by
      rw [Int.floor_eq_iff]
      norm_num
    rw [this]
    norm_num
  · rw [h.2, converter_point_hundred_value, hmax]
    have : ⌈(77 : ℚ) / 10⌉ = 8 := by
      rw [Int.ceil_eq_iff]
      norm_num
    rw [this]
    norm_num

/-! ## Claim C7 -/

lemma jsTruthyString_some_ne (s : String) (hs : s ≠ "") :
    jsTruthyString (some s) = true := by
  simp [jsTruthyString, hs]

lemma jsTruthyString_falsy (o : Option String)
    (ho : o = none ∨ o = some "") : jsTruthyString o = false := by
  rcases ho with rfl | rfl <;> rfl

/-- C7: the resolved x-axis title.  In the main revision: with a value
column (columns[1]) and a category column (columns[0]) both carrying
non-empty display names, the title is "value per category"; with only the
category column driving the axis, the title is its display name; with no
display name available the title is the empty string.  The part_000
revision has only the single-column and empty cases. -/
theorem claim_c7 (dv : DataView) (md : DataViewMetadata)
    (c0 : DataViewMetadataColumn) (rest : List DataViewMetadataColumn)
    (h1 : dv.metadata = some md) (h2 : md.columns = some (c0 :: rest)) :
    (∀ c1 crest cname vname, rest = c1 :: crest →
      c0.displayName = some cname → cname ≠ "" →
      c1.displayName = some vname → vname ≠ "" →
      (Main.parseSettings dv true).map (fun s => s.xAxisTitle) =
        some (vname ++ " per " ++ cname)) ∧
    (∀ dname, c0.displayName = some dname → dname ≠ "" →
      (Main.parseSettings dv false).map (fun s => s.xAxisTitle) = some dname) ∧
    ((∀ c ∈ c0 :: rest, c.displayName = none ∨ c.displayName = some "") →
      ∀ u, (Main.parseSettings dv u).map (fun s => s.xAxisTitle) = some "") ∧
    (∀ dname, c0.displayName = some dname → dname ≠ "" →
      (Part000.parseSettings dv).map (fun s => s.xAxisTitle) = some dname) ∧
    ((∀ c ∈ c0 :: rest, c.displayName = none ∨ c.displayName = some "") →
      (Part000.parseSettings dv).map (fun s => s.xAxisTitle) = some "") := by
  obtain ⟨dcat, dmd⟩ := dv
  simp only at h1
  subst h1
  obtain ⟨mcols, mobjs⟩ := md
  simp only at h2
  subst h2
  refine ⟨?_, ?_, ?_, ?_, ?_⟩
  · intro c1 crest cname vname hrest hc0 hcne hc1 hvne
    subst hrest
    simp [Main.parseSettings, hc0, hc1,
      jsTruthyString_some_ne cname hcne, jsTruthyString_some_ne vname hvne]
  · intro dname hc0 hdne
    simp [Main.parseSettings, hc0, jsTruthyString_some_ne dname hdne]
  · intro hall u
    have hf0 : jsTruthyString c0.displayName = false :=
      jsTruthyString_falsy _ (hall c0 (List.mem_cons_self c0 rest))
    cases u
    · simp [Main.parseSettings, hf0, Main.DefaultSettings]
    · cases rest with
      | nil => simp [Main.parseSettings, Main.DefaultSettings]
      | cons c1 crest =>
        have hf1 : jsTruthyString c1.displayName = false :=
          jsTruthyString_falsy _
            (hall c1 (List.mem_cons_of_mem c0 (List.mem_cons_self c1 crest)))
        simp [Main.parseSettings, hf0, hf1, Main.DefaultSettings]
  · intro dname hc0 hdne
    simp [Part000.parseSettings, hc0, jsTruthyString_some_ne dname hdne]
  · intro hall
    have hf0 : jsTruthyString c0.displayName = false :=
      jsTruthyString_falsy _ (hall c0 (List.mem_cons_self c0 rest))
    simp [Part000.parseSettings, hf0, Part000.DefaultSettings]

/-- Concrete data view with a category column "Region" and a value column
"Sales" in the metadata. -/
def c7DataViewBoth : DataView :=
  ⟨none, some ⟨some [⟨some "Region"⟩, ⟨some "Sales"⟩], none⟩⟩

/-- Concrete data view with a single named metadata column. -/
def c7DataViewOne : DataView := ⟨none, some ⟨some [⟨some "Region"⟩], none⟩⟩

/-- Concrete data view whose single metadata column has no display name. -/
def c7DataViewAnon : DataView := ⟨none, some ⟨some [⟨none⟩], none⟩⟩

/-- Witness for C7 at concrete metadata columns. -/
theorem claim_c7_witness :
    (Main.parseSettings c7DataViewBoth true).map (fun s => s.xAxisTitle) =
      some ("Sales" ++ " per " ++ "Region") ∧
    (Main.parseSettings c7DataViewOne false).map (fun s => s.xAxisTitle) =
      some "Region" ∧
    (Main.parseSettings c7DataViewAnon true).map (fun s => s.xAxisTitle) =
      some "" := by
  refine ⟨?_, ?_, ?_⟩
  · exact (claim_c7 c7DataViewBoth _ _ _ rfl rfl).1 ⟨some "Sales"⟩ [] "Region" "Sales"
      rfl rfl (by simp) rfl (by simp)
  · exact (claim_c7 c7DataViewOne _ _ _ rfl rfl).2.1 "Region" rfl (by simp)
  · exact (claim_c7 c7DataViewAnon _ _ _ rfl rfl).2.2.1
      (by intro c hc; simp at hc; subst hc; left; rfl) true

/-! ## Claim C8 -/

/-- C8: with metadata columns present, missing configuration never yields
an error: parseSettings always succeeds; an absent objects bag resolves
precision and fill color to the documented defaults, and absent display
names resolve the axis title to the default empty string. -/
theorem claim_c8 (dv : DataView) (md : DataViewMetadata)
    (c0 : DataViewMetadataColumn) (rest : List DataViewMetadataColumn) (u : Bool)
    (h1 : dv.metadata = some md) (h2 : md.columns = some (c0 :: rest)) :
    (Main.parseSettings dv u).isSome = true ∧
    (md.objects = none →
      (Main.parseSettings dv u).map (fun s => (s.precision, s.fillColor)) =
        some (Main.DefaultSettings.precision, Main.DefaultSettings.fillColor)) ∧
    ((∀ c ∈ c0 :: rest, c.displayName = none) →
      (Main.parseSettings dv u).map (fun s => s.xAxisTitle) = some "") := by
  obtain ⟨dcat, dmd⟩ := dv
  simp only at h1
  subst h1
  obtain ⟨mcols, mobjs⟩ := md
  simp only at h2
  subst h2
  refine ⟨?_, ?_, ?_⟩
  · cases u <;> cases rest <;>
      simp [Main.parseSettings]
  · intro hobj
    simp only at hobj
    subst hobj
    cases u <;> cases rest <;>
      simp [Main.parseSettings, Main.getPrecision, getColorForMeasure,
        Main.DefaultSettings]
  · intro hall
    have hf0 : jsTruthyString c0.displayName = false := by
      rw [hall c0 (List.mem_cons_self c0 rest)]
      rfl
    cases u
    · simp [Main.parseSettings, hf0, Main.DefaultSettings]
    · cases rest with
      | nil => simp [Main.parseSettings, Main.DefaultSettings]
      | cons c1 crest =>
        have hf1 : jsTruthyString c1.displayName = false := by
          rw [hall c1 (List.mem_cons_of_mem c0 (List.mem_cons_self c1 crest))]
          rfl
        simp [Main.parseSettings, hf0, hf1, Main.DefaultSettings]

/-- Concrete data view for the C8 witness: one display-name-free column
and no objects bag. -/
def c8DataView : DataView := ⟨none, some ⟨some [⟨none⟩], none⟩⟩

/-- Witness for C8: a data view with one display-name-free column and no
objects bag resolves to the default settings. -/
theorem claim_c8_witness :
    (Main.parseSettings c8DataView false).isSome = true ∧
    (Main.parseSettings c8DataView false).map (fun s => (s.precision, s.fillColor)) =
      some (Main.DefaultSettings.precision, Main.DefaultSettings.fillColor) ∧
    (Main.parseSettings c8DataView false).map (fun s => s.xAxisTitle) = some "" := by
  have h := claim_c8 c8DataView ⟨some [⟨none⟩], none⟩ ⟨none⟩ [] false rfl rfl
  exact ⟨h.1, h.2.1 rfl, h.2.2 (by intro c hc; simp at hc; subst hc; rfl)⟩

/-! ## Claim C3 -/

/-- Concrete data view whose category column carries an empty values
array. -/
def c3EmptyDataView : DataView := ⟨some ⟨some [⟨none, some []⟩], none⟩, none⟩

/-- Concrete viewport used for the C3 artifacts. -/
def c3Viewport : Viewport := ⟨400, 300⟩

/-- Counterexample to C3 as stated: for the empty dataset the converter
returns null (ok none) rather than a degraded view model carrying a
diagnostic legend, so points and settings are not fields of any produced
model and no legend string is present at all. -/
theorem claim_c3_counterexample :
    Main.converter c3EmptyDataView c3Viewport = .ok none := rfl

/-- C3 amended: a non-empty dataset containing a non-numeric or non-finite
element yields the degraded view model (points, settings and axes null,
legends of the diagnostic text), with exactly one legend carrying the
diagnostic string; an empty category values array instead makes the
converter return null with no legends at all. -/
theorem claim_c3_amended (dv : DataView) (vp : Viewport)
    (cat : DataViewCategorical) (cat0 : DataViewCategoryColumn)
    (rest : List DataViewCategoryColumn) (catValues : List JSValue)
    (h1 : dv.categorical = some cat) (h2 : cat.categories = some (cat0 :: rest))
    (h3 : cat0.values = some catValues) :
    (catValues = [] → Main.converter dv vp = .ok none) ∧
    (catValues ≠ [] →
      validateValues (Main.selectValues cat cat0 catValues).2.1 = false →
      Main.converter dv vp = .ok (some
        { percentiles := none, settings := none, xAxisDataDomain := none,
          yAxisDataDomain := none,
          legends := Main.generateLegends vp "Invalid data: Use numeric values" }) ∧
      (Main.generateLegends vp "Invalid data: Use numeric values").countP
        (fun l => l.text == "Invalid data: Use numeric values") = 1) := by
  obtain ⟨dcat, dmd⟩ := dv
  simp only at h1
  subst h1
  obtain ⟨ccats, cvals⟩ := cat
  simp only at h2
  subst h2
  obtain ⟨c0src, c0vals⟩ := cat0
  simp only at h3
  subst h3
  constructor
  · intro hempty
    subst hempty
    rfl
  · intro hne hval
    have hlen : ¬ catValues.length = 0 := by
      intro h
      exact hne (List.length_eq_zero.mp h)
    constructor
    · show (if catValues.length = 0 then _ else _) = _
      rw [if_neg hlen]
      simp only [hval]
      rfl
    · rfl

/-- Concrete data view whose category values are the strings "a", "b". -/
def c3BadDataView : DataView :=
  ⟨some ⟨some [⟨none, some [JSValue.str "a", JSValue.str "b"]⟩], none⟩, none⟩

/-- Witness for the amended C3 at the dataset ["a", "b"]. -/
theorem claim_c3_witness :
    Main.converter c3BadDataView c3Viewport = .ok (some
      { percentiles := none, settings := none, xAxisDataDomain := none,
        yAxisDataDomain := none,
        legends := Main.generateLegends c3Viewport "Invalid data: Use numeric values" }) ∧
    (Main.generateLegends c3Viewport "Invalid data: Use numeric values").countP
      (fun l => l.text == "Invalid data: Use numeric values") = 1 :=
  (claim_c3_amended c3BadDataView c3Viewport _ _ _ _ rfl rfl rfl).2
    (by simp) rfl

/-! ## Claim C10 -/

/-- C10: generateLegends always returns exactly two legend entries, the
first carrying the given x-axis title text and the second the fixed text
"Percentile"; and every converter result whose points are null (the
degraded view model) carries exactly the legends generated from the
diagnostic title, so the "Percentile" legend is present there as well. -/
theorem claim_c10 (vp : Viewport) (t : String) (dv : DataView)
    (m : Main.PercentileChartViewModel)
    (hm : Main.converter dv vp = .ok (some m)) (hdeg : m.percentiles = none) :
    (Main.generateLegends vp t).length = 2 ∧
    ((Main.generateLegends vp t).getD 0 { text := "" }).text = t ∧
    ((Main.generateLegends vp t).getD 1 { text := "" }).text = "Percentile" ∧
    m.legends = Main.generateLegends vp "Invalid data: Use numeric values" := by
  refine ⟨rfl, rfl, rfl, ?_⟩
  obtain ⟨dcat, dmd⟩ := dv
  cases dcat with
  | none => simp [Main.converter] at hm
  | some cat =>
    obtain ⟨ccats, cvals⟩ := cat
    cases ccats with
    | none => simp [Main.converter] at hm
    | some cats =>
      cases cats with
      | nil => simp [Main.converter] at hm
      | cons cat0 rest =>
        obtain ⟨c0src, c0vals⟩ := cat0
        cases c0vals with
        | none => simp [Main.converter] at hm
        | some catValues =>
          by_cases hlen : catValues.length = 0
          · rw [show Main.converter ⟨some ⟨some (⟨c0src, some catValues⟩ :: rest), cvals⟩, dmd⟩ vp
                = (if catValues.length = 0 then .ok none else _) from rfl, if_pos hlen] at hm
            simp at hm
          · rw [show Main.converter ⟨some ⟨some (⟨c0src, some catValues⟩ :: rest), cvals⟩, dmd⟩ vp
                = (if catValues.length = 0 then .ok none else _) from rfl, if_neg hlen] at hm
            by_cases hval : validateValues
                (Main.selectValues ⟨some (⟨c0src, some catValues⟩ :: rest), cvals⟩
                  ⟨c0src, some catValues⟩ catValues).2.1 = false
            · rw [if_pos hval] at hm
              have := (Except.ok.inj hm)
              have hmm := Option.some.inj this
              rw [← hmm]
            · rw [if_neg hval] at hm
              cases hps : Main.parseSettings ⟨some ⟨some (⟨c0src, some catValues⟩ :: rest), cvals⟩, dmd⟩
                  (Main.selectValues ⟨some (⟨c0src, some catValues⟩ :: rest), cvals⟩
                    ⟨c0src, some catValues⟩ catValues).2.2 with
              | none =>
                rw [hps] at hm
                simp at hm
              | some s =>
                rw [hps] at hm
                have := Option.some.inj (Except.ok.inj hm)
                rw [← this] at hdeg
                simp at hdeg

/-- Concrete viewport for the C10 witness. -/
def c10Viewport : Viewport := ⟨500, 500⟩

/-- Concrete invalid data view for the C10 witness. -/
def c10DataView : DataView :=
  ⟨some ⟨some [⟨none, some [JSValue.str "x", JSValue.nan]⟩], none⟩, none⟩

/-- The degraded view model the converter produces for c10DataView. -/
def c10Degraded : Main.PercentileChartViewModel :=
  { percentiles := none, settings := none, xAxisDataDomain := none,
    yAxisDataDomain := none,
    legends := Main.generateLegends c10Viewport "Invalid data: Use numeric values" }

/-- Witness for C10 at a concrete viewport, title and degraded model. -/
theorem claim_c10_witness :
    (Main.generateLegends c10Viewport "T").length = 2 ∧
    ((Main.generateLegends c10Viewport "T").getD 0 { text := "" }).text = "T" ∧
    ((Main.generateLegends c10Viewport "T").getD 1 { text := "" }).text = "Percentile" ∧
    c10Degraded.legends =
      Main.generateLegends c10Viewport "Invalid data: Use numeric values" :=
  claim_c10 c10Viewport "T" c10DataView c10Degraded rfl rfl

end PowerBIPercentile
